import Mathlib

/-!
# Verification of the AlphaTrader signal pipeline (`src/app.py`)

Shallow embedding of the core computational logic of `app.py`:
the snapshot store (`load_snapshot` / `save_snapshot`), the options
sentiment calculator (`get_advanced_pc_ratio`), the indicator engine and
signal classifier (`calculate_technical_indicators`), and the sentiment
scorer (`get_comprehensive_analysis`).

Conventions of the embedding:
* prices/volumes are `Rat` (the Python floats, with exact arithmetic);
* a pandas `NaN` cell in a derived column is `none : Option Rat`;
  numpy comparisons against `NaN` are `false`, and arithmetic on `NaN`
  propagates `NaN`, which the `Option` combinators below reproduce;
* file I/O and the network are replaced by explicit values: the snapshot
  file becomes a `FileState`, the per-expiration `yf` fetches become an
  input list where a failed fetch is `none`.
-/

namespace AlphaTrader

/-- One OHLCV bar (a row of the downloaded dataframe).  All fields are
present; on such data `df.ffill()` in `calculate_technical_indicators`
is the identity, so it is not modelled separately. -/
structure Bar where
  op : Rat
  high : Rat
  low : Rat
  close : Rat
  volume : Rat
  deriving Repr, DecidableEq, Inhabited

/-! ## Snapshot store (`load_snapshot` / `save_snapshot`, app.py lines 51-73) -/

/-- One row of an option chain (`strike`, `volume`); `volume = none`
models a `NaN` volume cell, which `fillna(0)` turns into `0`. -/
structure OptionRow where
  strike : Rat
  volume : Option Rat
  deriving Repr, DecidableEq, Inhabited

/-- The pair of dataframes returned by `tk.option_chain(date)`. -/
structure Chain where
  calls : List OptionRow
  puts : List OptionRow
  deriving Repr, DecidableEq

/-- One element of the `details` list built by `get_advanced_pc_ratio`:
`{"到期日": date, "Call": int(c_vol), "Put": int(p_vol)}`. -/
structure Detail where
  expiry : String
  callV : Int
  putV : Int
  deriving Repr, DecidableEq

/-- The success value of `get_advanced_pc_ratio`:
`{"ratio": .., "total_call": .., "total_put": .., "details": ..}`. -/
structure PCData where
  ratio : Rat
  total_call : Rat
  total_put : Rat
  details : List Detail
  deriving Repr, DecidableEq

/-- A snapshot record as written by `save_snapshot`:
`{"date": .., "timestamp": .., "close_price": .., "pc_data": ..}`.
`date` stands for `datetime.datetime.now().strftime('%Y-%m-%d')` and
`timestamp` for the `'%Y-%m-%d %H:%M:%S'` form; both are supplied by the
caller of the model since `now()` is ambient state in Python. -/
structure SnapRecord where
  date : String
  timestamp : String
  close_price : Rat
  pc_data : PCData
  deriving Repr, DecidableEq

/-- The state of the snapshot file `options_history.json`:
absent, present but not valid JSON, or a parsed top-level object.
The object is an association list keyed by ticker, in insertion order
(Python dict order). -/
inductive FileState where
  | missing
  | corrupt
  | parsed (m : List (String × SnapRecord))
  deriving Repr, DecidableEq

/-- Python `dict` lookup `data.get(ticker)` on an insertion-ordered
association list. -/
def dictGet (m : List (String × SnapRecord)) (k : String) : Option SnapRecord :=
  match m with
  | [] => none
  | (k', v) :: t => if k' = k then some v else dictGet t k

/-- Python `dict` assignment `all_data[ticker] = record`: replace the
value in place if the key exists, else append. -/
def dictSet (m : List (String × SnapRecord)) (k : String) (v : SnapRecord) :
    List (String × SnapRecord) :=
  match m with
  | [] => [(k, v)]
  | (k', v') :: t => if k' = k then (k', v) :: t else (k', v') :: dictSet t k v

/-- `load_snapshot(ticker)` (app.py lines 51-57): `None` when the file is
missing, unparseable (`except: return None`), or lacks the key. -/
def load_snapshot (ticker : String) (fs : FileState) : Option SnapRecord :=
  match fs with
  | .missing => none
  | .corrupt => none
  | .parsed m => dictGet m ticker

/-- `save_snapshot(ticker, price, pc_data)` (app.py lines 59-73): builds
the record from the current date/timestamp, reads the existing file into
`all_data` (an empty dict when the file is missing, and also when parsing
fails, because the `except: pass` leaves `all_data = {}`), stores the
record under `ticker`, and rewrites the whole file. -/
def save_snapshot (today ts : String) (ticker : String) (price : Rat)
    (pc : PCData) (fs : FileState) : FileState :=
  let record : SnapRecord :=
    { date := today, timestamp := ts, close_price := price, pc_data := pc }
  let all_data : List (String × SnapRecord) :=
    match fs with
    | .parsed m => m
    | _ => []
  .parsed (dictSet all_data ticker record)

/-! ## Options sentiment calculator (`get_advanced_pc_ratio`, app.py lines 171-205) -/

/-- `np.abs(series - p).argmin()` on a nonempty list: the index of the
first element minimising `|x - p|` (numpy's `argmin` returns the first
minimiser). `bi`/`bv` carry the best index and value so far. -/
def argminAbsAux (p : Rat) : List Rat → Nat → Rat → Nat → Nat
  | [], bi, _, _ => bi
  | x :: t, bi, bv, i =>
      if |x - p| < bv then argminAbsAux p t i |x - p| (i + 1)
      else argminAbsAux p t bi bv (i + 1)

/-- `(np.abs(xs - p)).argmin()`; `0` on the empty list (numpy would
raise, but every call site guards against empty chains). -/
def argminAbs (xs : List Rat) (p : Rat) : Nat :=
  match xs with
  | [] => 0
  | x :: t => argminAbsAux p t 0 |x - p| 1

/-- The strike window summed for one side of a chain:
`rows.iloc[max(0, c-5) : min(len(rows), c+6)]` where
`c = argmin |strike - p|`.  (`c - 5` on `Nat` is already
`max 0 (c - 5)`.) -/
def windowRows (rows : List OptionRow) (p : Rat) : List OptionRow :=
  let c := argminAbs (rows.map OptionRow.strike) p
  (rows.drop (c - 5)).take (min rows.length (c + 6) - (c - 5))

/-- `rows.iloc[...]['volume'].fillna(0).sum()` over the strike window. -/
def sideVolume (rows : List OptionRow) (p : Rat) : Rat :=
  ((windowRows rows p).map (fun r => r.volume.getD 0)).sum

/-- One expiration as seen by the loop in `get_advanced_pc_ratio`:
the day offset `(exp_date - today).days` and the fetched chain, where
`none` models `tk.option_chain(date)` raising (the `except: continue`). -/
structure ExpEntry where
  label : String
  expDays : Int
  chain : Option Chain
  deriving Repr, DecidableEq

/-- Whether the loop body uses this expiration: the chain fetch succeeded
and neither side is `None`/empty (`if calls is None or puts is None or
calls.empty or puts.empty: continue`). -/
def usableChain (e : ExpEntry) : Option Chain :=
  match e.chain with
  | none => none
  | some ch => if ch.calls = [] ∨ ch.puts = [] then none else some ch

/-- The accumulation loop of `get_advanced_pc_ratio` (app.py lines
186-201): `total_call_vol += c_vol`, `total_put_vol += p_vol` and
`details.append(...)` per valid expiration, in loop order. -/
def accumulateL (price : Rat) (es : List ExpEntry) : Rat × Rat × List Detail :=
  es.foldl
    (fun acc e =>
      match usableChain e with
      | none => acc
      | some ch =>
          let cv := sideVolume ch.calls price
          let pv := sideVolume ch.puts price
          (acc.1 + cv, acc.2.1 + pv, acc.2.2 ++ [⟨e.label, cv.floor, pv.floor⟩]))
    (0, 0, [])

/-- `get_advanced_pc_ratio(ticker, current_price)` (app.py lines
171-205) with the network replaced by the expiration list `exps`.
Returns the Python pair `(value_or_None, error_or_None)`:
* `(None, "無期權數據")` when the ticker lists no expirations;
* `(None, "無 40 日內到期合約")` when none expires within 0-40 days;
* otherwise accumulates volumes over the valid expirations and returns
  `ratio = total_put / total_call` when `total_call > 0`, else the
  sentinel `2.0` — unconditionally, even when both totals are `0`. -/
def get_advanced_pc_ratio (exps : List ExpEntry) (current_price : Rat) :
    Option PCData × Option String :=
  if exps = [] then (none, some "無期權數據")
  else
    let valid := exps.filter (fun e => 0 ≤ e.expDays ∧ e.expDays ≤ 40)
    if valid = [] then (none, some "無 40 日內到期合約")
    else
      let acc := accumulateL current_price valid
      let ratio := if acc.1 > 0 then acc.2.1 / acc.1 else 2
      (some { ratio := ratio, total_call := acc.1, total_put := acc.2.1,
              details := acc.2.2 }, none)

/-! ## Indicator engine (`calculate_technical_indicators`, app.py lines 76-115)

Derived columns hold `Option Rat`; `none` is a pandas `NaN` warm-up cell.
The moving-average columns model the `pandas_ta` functions the source
calls: an EMA/RMA seeded with the plain average of its first `n` inputs
(the first `n - 1` cells are `NaN`) and thereafter the usual recursion
`e_i = a * x_i + (1 - a) * e_(i-1)` with `a = 2 / (n + 1)` for EMA and
`a = 1 / n` for the Wilder RMA used by ATR and RSI. -/

/-- The recursive tail of an exponentially weighted average: each output
is `a * x + (1 - a) * previous`. -/
def emaTail (a : Rat) (prev : Rat) : List Rat → List Rat
  | [] => []
  | x :: xs => (a * x + (1 - a) * prev) :: emaTail a (a * x + (1 - a) * prev) xs

/-- An exponentially weighted column with smoothing factor `a` and an
`n`-wide simple-average seed: cells `0 .. n-2` are `NaN`, cell `n - 1`
is the mean of the first `n` inputs, and later cells follow the
recursion.  All cells are `NaN` when fewer than `n` inputs exist. -/
def ewmCol (a : Rat) (n : Nat) (xs : List Rat) : List (Option Rat) :=
  if xs.length < n ∨ n = 0 then List.replicate xs.length none
  else
    List.replicate (n - 1) none ++
      some ((xs.take n).sum / n) ::
        (emaTail a ((xs.take n).sum / n) (xs.drop n)).map some

/-- `ta.ema(series, length=n)`. -/
def ema (n : Nat) (xs : List Rat) : List (Option Rat) :=
  ewmCol (2 / (n + 1)) n xs

/-- The Wilder moving average (`mamode="rma"`) used inside `ta.atr` and
`ta.rsi`. -/
def rma (n : Nat) (xs : List Rat) : List (Option Rat) :=
  ewmCol (1 / n) n xs

/-- `ta.sma(series, length=n)`: cell `i` is the mean of inputs
`i-n+1 .. i`, `NaN` while fewer than `n` inputs have been seen. -/
def sma (n : Nat) (xs : List Rat) : List (Option Rat) :=
  (List.range xs.length).map (fun i =>
    if i + 1 < n then none
    else some (((xs.drop (i + 1 - n)).take n).sum / n))

/-- Pointwise subtraction of two columns; `NaN` absorbs. -/
def osub (xs ys : List (Option Rat)) : List (Option Rat) :=
  List.zipWith (fun a b =>
    match a, b with
    | some x, some y => some (x - y)
    | _, _ => none) xs ys

/-- Number of leading `NaN` cells of a column. -/
def leadNones : List (Option Rat) → Nat
  | [] => 0
  | none :: xs => leadNones xs + 1
  | some _ :: _ => 0

/-- An exponentially weighted average of a column that starts with `NaN`
warm-up cells (the MACD signal line, an EMA of the MACD line): the
leading `NaN`s stay `NaN` and the EMA runs over the remaining values. -/
def emaOptCol (n : Nat) (xs : List (Option Rat)) : List (Option Rat) :=
  List.replicate (leadNones xs) none ++
    ema n ((xs.drop (leadNones xs)).map (fun o => o.getD 0))

/-- The true-range column feeding `ta.atr`: `high - low` for the first
bar, and `max(high - low, |high - prev_close|, |low - prev_close|)`
afterwards. -/
def trueRange (df : List Bar) : List Rat :=
  (List.range df.length).map (fun i =>
    let b := df.getD i default
    if i = 0 then b.high - b.low
    else
      let pc := (df.getD (i - 1) default).close
      max (b.high - b.low) (max |b.high - pc| |b.low - pc|))

/-- `ta.rsi(close, length=14)`: Wilder averages of the up-moves and
down-moves of the close-to-close differences, combined as
`100 * avg_gain / (avg_gain + avg_loss)`.  Cell `0` has no difference
and is `NaN`; an empty series yields an empty column.  (When both averages are `0` — a constant series — the
Python value is `NaN`; `Rat` division by zero makes the cell `0` here,
a cell no claim depends on.) -/
def rsiCol (xs : List Rat) : List (Option Rat) :=
  let difs := List.zipWith (fun a b => a - b) xs.tail xs
  let ag := rma 14 (difs.map (fun d => max d 0))
  let al := rma 14 (difs.map (fun d => max (-d) 0))
  let rest := List.zipWith (fun a b =>
    match a, b with
    | some g, some l => some (100 * g / (g + l))
    | _, _ => none) ag al
  match xs with
  | [] => []
  | _ :: _ => none :: rest

/-- The three signal states of the classifier
(`強力多頭` / `震盪` / `強力空頭`). -/
inductive Sig where
  | strongBull
  | oscillation
  | strongBear
  deriving Repr, DecidableEq, Inhabited

/-- numpy `>` between possibly-`NaN` cells: false unless both present. -/
def oGt (a b : Option Rat) : Bool :=
  match a, b with
  | some x, some y => x > y
  | _, _ => false

/-- numpy `<` between possibly-`NaN` cells: false unless both present. -/
def oLt (a b : Option Rat) : Bool :=
  match a, b with
  | some x, some y => x < y
  | _, _ => false

/-- One row of the augmented dataframe: the bar plus the derived
columns and the classified signal. -/
structure IndRow where
  bar : Bar
  ema8 : Option Rat
  ema21 : Option Rat
  macdLine : Option Rat
  macdSignal : Option Rat
  macdHist : Option Rat
  volSMA10 : Option Rat
  atr : Option Rat
  rsi : Option Rat
  stopLoss : Option Rat
  signal : Sig
  deriving Repr, DecidableEq, Inhabited

/-- The BUY mask of app.py lines 102-108 evaluated on one row
(`prevHist` is `MACD_Hist.shift(1)` at this row): close above EMA8,
EMA8 above EMA21, positive and rising histogram, volume above
`1.2 ×` its SMA.  Every comparison involving `NaN` is false. -/
def buyCond (r : IndRow) (prevHist : Option Rat) : Bool :=
  oGt (some r.bar.close) r.ema8 &&
  oGt r.ema8 r.ema21 &&
  oGt r.macdHist (some 0) &&
  oGt r.macdHist prevHist &&
  oGt (some r.bar.volume) (r.volSMA10.map (fun v => v * (6/5)))

/-- The SELL mask of app.py line 112: close below EMA21, or negative
histogram. -/
def sellCond (r : IndRow) : Bool :=
  oLt (some r.bar.close) r.ema21 || oLt r.macdHist (some 0)

/-- The classifier of app.py lines 100-113: `np.select` writes `強力多頭`
where the BUY mask holds (default `震盪`), then the `.loc[sell_cond]`
assignment overwrites every SELL-mask row with `強力空頭` — so SELL wins
whenever its mask is true. -/
def classify (r : IndRow) (prevHist : Option Rat) : Sig :=
  if sellCond r then .strongBear
  else if buyCond r prevHist then .strongBull
  else .oscillation

/-- Builds row `i` of the augmented dataframe from the column values at
`i`; `Stop_Loss = Close - ATR * atr_mult` (app.py line 98, `NaN` when
the ATR is `NaN`), then the signal from the masks. -/
def mkRow (b : Bar) (e8 e21 line sigl hist vsma atrv rsiv : Option Rat)
    (atr_mult : Rat) (prevHist : Option Rat) : IndRow :=
  let r : IndRow :=
    { bar := b, ema8 := e8, ema21 := e21, macdLine := line,
      macdSignal := sigl, macdHist := hist, volSMA10 := vsma,
      atr := atrv, rsi := rsiv,
      stopLoss := atrv.map (fun a => b.close - a * atr_mult),
      signal := .oscillation }
  { r with signal := classify r prevHist }

/-- `df['EMA_8'] = ta.ema(df['Close'], length=8)` (app.py line 82). -/
def ema8Col (df : List Bar) : List (Option Rat) := ema 8 (df.map Bar.close)

/-- `df['EMA_21'] = ta.ema(df['Close'], length=21)` (app.py line 83). -/
def ema21Col (df : List Bar) : List (Option Rat) := ema 21 (df.map Bar.close)

/-- The `MACD_Line` column of `ta.macd(close, 12, 26, 9)`:
EMA(12) minus EMA(26) of the closes. -/
def macdLineCol (df : List Bar) : List (Option Rat) :=
  osub (ema 12 (df.map Bar.close)) (ema 26 (df.map Bar.close))

/-- The `MACD_Signal` column: the EMA(9) of the MACD line (whose
warm-up cells are `NaN`). -/
def macdSignalCol (df : List Bar) : List (Option Rat) :=
  emaOptCol 9 (macdLineCol df)

/-- The `MACD_Hist` column: MACD line minus signal line. -/
def macdHistCol (df : List Bar) : List (Option Rat) :=
  osub (macdLineCol df) (macdSignalCol df)

/-- `df['Vol_SMA_10'] = ta.sma(df['Volume'], length=10)` (line 95). -/
def volSMACol (df : List Bar) : List (Option Rat) := sma 10 (df.map Bar.volume)

/-- `df['ATR'] = ta.atr(high, low, close, length=14)` (line 96): the
Wilder RMA of the true range. -/
def atrCol (df : List Bar) : List (Option Rat) := rma 14 (trueRange df)

/-- `df['RSI'] = ta.rsi(df['Close'], length=14)` (line 97). -/
def rsiColOf (df : List Bar) : List (Option Rat) := rsiCol (df.map Bar.close)

/-- The column-building body of `calculate_technical_indicators`
(app.py lines 79-113) on a series already known to be long enough:
EMA(8), EMA(21), MACD(12,26,9) → (line, signal, histogram), volume
SMA(10), ATR(14) (Wilder RMA of the true range), RSI(14), stop-loss,
and the per-row signal.  (`ta.macd` returns a real dataframe for every
series of length ≥ 50, so the `if macd is not None` guard always
takes the `then` branch here.) -/
def augment (df : List Bar) (atr_mult : Rat) : List IndRow :=
  (List.range df.length).map (fun i =>
    mkRow (df.getD i default) ((ema8Col df).getD i none)
      ((ema21Col df).getD i none) ((macdLineCol df).getD i none)
      ((macdSignalCol df).getD i none) ((macdHistCol df).getD i none)
      ((volSMACol df).getD i none) ((atrCol df).getD i none)
      ((rsiColOf df).getD i none) atr_mult
      (if i = 0 then none else (macdHistCol df).getD (i - 1) none))

/-- `calculate_technical_indicators(df, atr_mult)` (app.py lines
76-115): the Python pair `(df, err)` — the untouched input with the
error string `"數據不足"` when fewer than 50 rows, otherwise the
augmented dataframe with `None` for the error. -/
def calculate_technical_indicators (df : List Bar) (atr_mult : Rat) :
    (List Bar ⊕ List IndRow) × Option String :=
  if df.length < 50 then (.inl df, some "數據不足")
  else (.inr (augment df atr_mult), none)

/-! ## Sentiment scorer (`get_comprehensive_analysis`, app.py lines 208-283)

The scorer reads the last two rows of the augmented dataframe, so its
row inputs are `IndRow`s; comparisons on possibly-`NaN` columns use the
numpy rules (`oGt`/`oLt`).  The Chinese explanation strings are kept,
minus their interpolated numbers (`f"... {rsi:.1f} ..."` etc.), which no
claim depends on. -/

/-- One tuple appended to `analysis_report`:
`(factor name, trend verdict, explanation, score)`. -/
structure Factor where
  name : String
  trend : String
  desc : String
  score : Rat
  deriving Repr, DecidableEq

/-- `row['Volume'] / row['Vol_SMA_10']`: `NaN` when the SMA is `NaN`.
(`Rat` makes `v / 0 = 0` where the Python float gives `inf`; theorems
touching the ratio exclude the `Vol_SMA_10 == 0` cell.) -/
def volRatio (r : IndRow) : Option Rat :=
  r.volSMA10.map (fun s => r.bar.volume / s)

/-- Factor 1, moving averages (app.py lines 214-221): the appended
entry, the `bull_score` increment and the `bear_score` increment. -/
def maFactor (row : IndRow) : Factor × Rat × Rat :=
  if oGt (some row.bar.close) row.ema8 && oGt row.ema8 row.ema21 then
    (⟨"均線系統", "多頭", "收盤價站上短長均線，呈現多頭排列發散。", 1⟩, 1, 0)
  else if oLt (some row.bar.close) row.ema21 then
    (⟨"均線系統", "空頭", "收盤價跌破長期均線 (EMA21)，趨勢轉弱。", -1⟩, 0, 1)
  else
    (⟨"均線系統", "中性", "價格介於均線之間，震盪整理中。", 0⟩, 0, 0)

/-- Factor 2, MACD momentum (app.py lines 223-232). -/
def macdFactor (row prev_row : IndRow) : Factor × Rat × Rat :=
  if oGt row.macdHist (some 0) then
    if oGt row.macdHist prev_row.macdHist then
      (⟨"MACD 動能", "多頭", "紅柱持續放大，上漲動能強勁。", 1⟩, 1, 0)
    else
      (⟨"MACD 動能", "中性", "紅柱收斂，漲勢可能放緩。", 0⟩, 0, 0)
  else
    (⟨"MACD 動能", "空頭", "綠柱空方控盤，動能偏弱。", -1⟩, 0, 1)

/-- Factor 3, RSI zone (app.py lines 234-249). -/
def rsiFactor (row : IndRow) : Factor × Rat × Rat :=
  if oGt row.rsi (some 50) then
    if oGt row.rsi (some 70) then
      (⟨"RSI 指標", "強勢/過熱", "RSI 進入超買區，需留意回調風險。", 1/2⟩, 1/2, 0)
    else
      (⟨"RSI 指標", "多頭", "RSI 位於多方強勢區。", 1⟩, 1, 0)
  else
    if oLt row.rsi (some 30) then
      (⟨"RSI 指標", "超賣", "RSI 進入超賣區，可能醞釀反彈。", -(1/2)⟩, 0, 1/2)
    else
      (⟨"RSI 指標", "空頭", "RSI 位於弱勢區。", -1⟩, 0, 1)

/-- Factor 4, volume/price (app.py lines 251-262).  Note the dead
branches: a rising close with a volume ratio inside `[0.8, 1.2]`, and a
non-rising close with a ratio that is not above `1.2`, append nothing. -/
def volPriceFactor (row : IndRow) : List Factor × Rat × Rat :=
  if row.bar.close > row.bar.op then
    if oGt (volRatio row) (some (6/5)) then
      ([⟨"量價關係", "多頭", "出量上漲，攻擊量能充足。", 1⟩], 1, 0)
    else if oLt (volRatio row) (some (4/5)) then
      ([⟨"量價關係", "中性", "價漲量縮，追價意願不足。", 0⟩], 0, 0)
    else ([], 0, 0)
  else
    if oGt (volRatio row) (some (6/5)) then
      ([⟨"量價關係", "空頭", "出量下跌，賣壓沈重。", -1⟩], 0, 1)
    else ([], 0, 0)

/-- Factor 5, options P/C ratio (app.py lines 264-274): present exactly
when `pc_data` is (`if pc_data:` on a nonempty dict is truthy, and every
`PCData` dict has four keys). -/
def optionsFactor (pc : Option PCData) : List Factor × Rat × Rat :=
  match pc with
  | none => ([], 0, 0)
  | some d =>
      if d.ratio < 7/10 then
        ([⟨"期權籌碼", "多頭", "P/C Ratio 偏低，市場看多情緒濃厚。", 1⟩], 1, 0)
      else if d.ratio > 11/10 then
        ([⟨"期權籌碼", "空頭", "P/C Ratio 偏高，市場避險情緒上升。", -1⟩], 0, 1)
      else
        ([⟨"期權籌碼", "中性", "P/C Ratio 位於正常區間。", 0⟩], 0, 0)

/-- `get_comprehensive_analysis(row, prev_row, pc_data)` (app.py lines
208-283): the sentiment label and the ordered factor breakdown. -/
def get_comprehensive_analysis (row prev_row : IndRow) (pc_data : Option PCData) :
    String × List Factor :=
  let m := maFactor row
  let d := macdFactor row prev_row
  let s := rsiFactor row
  let v := volPriceFactor row
  let o := optionsFactor pc_data
  let bull := m.2.1 + d.2.1 + s.2.1 + v.2.1 + o.2.1
  let bear := m.2.2 + d.2.2 + s.2.2 + v.2.2 + o.2.2
  let total := bull - bear
  let sentiment :=
    if total ≥ 5/2 then "🚀 強力多頭"
    else if total ≥ 1 then "📈 偏多震盪"
    else if total ≤ -(5/2) then "🩸 強力空頭"
    else if total ≤ -1 then "📉 偏空震盪"
    else "⚖️ 多空平衡"
  (sentiment, [m.1, d.1, s.1] ++ v.1 ++ o.1)

/-- How many entries of a factor breakdown carry a given factor name. -/
def countFactor (rep : List Factor) (nm : String) : Nat :=
  (rep.filter (fun f => f.name = nm)).length

/-! ## Concrete instances used by witnesses and counterexamples -/

/-- A constant OHLCV bar. -/
def testBar : Bar := ⟨10, 12, 9, 10, 100⟩

/-- Fifty identical bars: the shortest series the indicator engine
accepts. -/
def testBars50 : List Bar := List.replicate 50 testBar

/-- 51 bars whose last bar closes up. -/
def testBarsA : List Bar := testBars50 ++ [⟨10, 12, 9, 11, 100⟩]

/-- 51 bars agreeing with `testBarsA` on the first 50 rows only. -/
def testBarsB : List Bar := testBars50 ++ [⟨10, 13, 8, 9, 200⟩]

/-- The strike ladder of the spec's window-selection example. -/
def strikes115 : List Rat :=
  [90, 95, 100, 105, 110, 115, 120, 125, 130, 135, 140, 145]

/-- The example chain side: the twelve strikes, one contract of volume
each. -/
def chain115 : List OptionRow := strikes115.map (fun s => ⟨s, some 1⟩)

/-- One valid expiration whose call and put volumes are both zero. -/
def expZero : List ExpEntry :=
  [⟨"2026-01-16", 10, some ⟨[⟨100, some 0⟩], [⟨100, some 0⟩]⟩⟩]

/-- One valid expiration with zero call volume and put volume 120. -/
def expPut120 : List ExpEntry :=
  [⟨"2026-01-16", 5, some ⟨[⟨100, some 0⟩], [⟨100, some 120⟩]⟩⟩]

/-- One valid expiration with call volume 40 and put volume 120. -/
def expBoth : List ExpEntry :=
  [⟨"2026-01-16", 5, some ⟨[⟨100, some 40⟩], [⟨100, some 120⟩]⟩⟩]

/-- A row whose close is up on the day with volume exactly at its SMA
(volume ratio 1): the dead middle branch of the volume/price factor. -/
def rowNoVol : IndRow :=
  ⟨⟨10, 12, 9, 11, 100⟩, some 10, some 9, some 1, some (1/2), some (1/2),
   some 100, some 1, some 60, some 9, .strongBull⟩

/-- A row satisfying the SELL mask (close 10 below EMA21 = 11). -/
def rowSell : IndRow :=
  ⟨⟨10, 12, 9, 10, 100⟩, some 10, some 11, some (-1), some 0, some (-1),
   some 100, some 1, some 40, some 8, .oscillation⟩

/-- A sample put/call computation result. -/
def samplePC : PCData := ⟨3/2, 40, 60, [⟨"2026-01-16", 40, 60⟩]⟩

/-- A sample snapshot record for another ticker. -/
def sampleRec : SnapRecord := ⟨"2026-10-10", "2026-10-10 15:58:00", 250, samplePC⟩

/-! ## Helper lemmas -/

theorem dictGet_dictSet_self (m : List (String × SnapRecord)) (k : String)
    (v : SnapRecord) : dictGet (dictSet m k v) k = some v := by
  induction m with
  | nil => simp [dictSet, dictGet]
  | cons h t ih =>
      by_cases hk : h.1 = k
      · simp [dictSet, dictGet, hk]
      · simp [dictSet, dictGet, hk, ih]

theorem dictGet_dictSet_ne (m : List (String × SnapRecord)) (k k' : String)
    (v : SnapRecord) (hk : k' ≠ k) :
    dictGet (dictSet m k v) k' = dictGet m k' := by
  have hk' : k ≠ k' := fun e => hk e.symm
  induction m with
  | nil => simp [dictSet, dictGet, hk']
  | cons p t ih =>
      by_cases h1 : p.1 = k
      · subst h1
        simp [dictSet, dictGet, hk']
      · simp [dictSet, dictGet, h1, ih]

/-! ## Claims -/

/-- C6: a bar series with fewer than 50 rows makes
`calculate_technical_indicators` return the input series unchanged (no
indicator columns, no signal) together with the `數據不足`
(InsufficientData) error. -/
theorem short_series_returns_input_unchanged (df : List Bar) (atr_mult : Rat)
    (h : df.length < 50) :
    calculate_technical_indicators df atr_mult = (.inl df, some "數據不足") := by
  simp [calculate_technical_indicators, h]

theorem short_series_returns_input_unchanged_witness :
    ([testBar] : List Bar).length < 50 ∧
      calculate_technical_indicators [testBar] (5/2) =
        (.inl [testBar], some "數據不足") :=
  ⟨by decide, short_series_returns_input_unchanged [testBar] (5/2) (by decide)⟩

/-- C9: saving a snapshot and loading the same ticker on the same
calendar day returns a record whose `date` is the current date string
(the caller-supplied `%Y-%m-%d` rendering of `now()`), whose
`close_price` is the saved price, and whose `pc_data` equals what was
saved — in any prior file state. -/
theorem snapshot_roundtrip (today ts ticker : String) (price : Rat)
    (pc : PCData) (fs : FileState) :
    load_snapshot ticker (save_snapshot today ts ticker price pc fs) =
      some { date := today, timestamp := ts, close_price := price,
             pc_data := pc } := by
  cases fs <;>
    simp [load_snapshot, save_snapshot, dictGet_dictSet_self]

/-- C10: `save_snapshot` keeps every other ticker's record exactly when
the existing file parses, but a file that exists and fails to parse is
replaced by a one-key object holding only the saved ticker (the
`except: pass` leaves `all_data = {}`), discarding all other stored
snapshots. -/
theorem save_snapshot_frame (today ts ticker : String) (price : Rat)
    (pc : PCData) (m : List (String × SnapRecord)) (k : String)
    (hk : k ≠ ticker) :
    load_snapshot k (save_snapshot today ts ticker price pc (.parsed m)) =
        dictGet m k ∧
      save_snapshot today ts ticker price pc .corrupt =
        .parsed [(ticker, { date := today, timestamp := ts,
                            close_price := price, pc_data := pc })] := by
  constructor
  · simp [load_snapshot, save_snapshot, dictGet_dictSet_ne m ticker k _ hk]
  · simp [save_snapshot, dictSet]

theorem save_snapshot_frame_witness :
    ("AAPL" : String) ≠ "TSLA" ∧
      (load_snapshot "AAPL"
          (save_snapshot "2026-10-12" "2026-10-12 15:58:00" "TSLA" 250 samplePC
            (.parsed [("AAPL", sampleRec)])) = some sampleRec ∧
        save_snapshot "2026-10-12" "2026-10-12 15:58:00" "TSLA" 250 samplePC
            .corrupt =
          .parsed [("TSLA", { date := "2026-10-12",
                              timestamp := "2026-10-12 15:58:00",
                              close_price := 250, pc_data := samplePC })]) := by
  refine ⟨by decide, ?_, ?_⟩
  · have h := save_snapshot_frame "2026-10-12" "2026-10-12 15:58:00" "TSLA" 250
      samplePC [("AAPL", sampleRec)] "AAPL" (by decide)
    rw [h.1]; rfl
  · exact (save_snapshot_frame "2026-10-12" "2026-10-12 15:58:00" "TSLA" 250
      samplePC [] "AAPL" (by decide)).2

/-- C2: the SELL mask is applied after the BUY mask and overrides it:
whenever a row satisfies the SELL condition (close below EMA21, or
negative MACD histogram), the classifier outputs `強力空頭` no matter
what the BUY mask says.  (This is strictly stronger than the claim as
written: the full BUY predicate forces close > EMA8 > EMA21 and
MACD_Hist > 0, so no real-valued row satisfies BUY and SELL at once;
the override is exactly the property proved here.) -/
theorem sell_overrides_buy (r : IndRow) (prevHist : Option Rat)
    (h : sellCond r = true) :
    classify r prevHist = .strongBear := by
  simp [classify, h]

theorem sell_overrides_buy_witness :
    sellCond rowSell = true ∧ classify rowSell (some 0) = .strongBear :=
  ⟨by decide, sell_overrides_buy rowSell (some 0) (by decide)⟩

unseal Rat.add Rat.mul Rat.sub Rat.inv in
/-- C1 counterexample: a computation whose accumulated call and put
volumes are both `0` does not fail — line 203's
`ratio = ... if total_call_vol > 0 else 2.0` makes
`get_advanced_pc_ratio` return a success value with the numeric
sentinel ratio `2.0` and no error. -/
theorem both_zero_returns_sentinel_counterexample :
    (get_advanced_pc_ratio expZero 100).1 =
        some { ratio := 2, total_call := 0, total_put := 0,
               details := [⟨"2026-01-16", 0, 0⟩] } ∧
      (get_advanced_pc_ratio expZero 100).2 = none := by
  exact ⟨by decide, by decide⟩

/-- C1 (amended): when the accumulated total call and put volumes are
both `0`, the calculator does not produce the defined failure
`"no volume today"`; it succeeds with the sentinel ratio `2.0` (and
zero totals), exactly as for the pure put-skew case. -/
theorem both_zero_returns_sentinel (exps : List ExpEntry) (p : Rat)
    (hne : exps ≠ [])
    (hv : exps.filter (fun e => 0 ≤ e.expDays ∧ e.expDays ≤ 40) ≠ [])
    (hc : (accumulateL p (exps.filter (fun e => 0 ≤ e.expDays ∧ e.expDays ≤ 40))).1 = 0)
    (hp : (accumulateL p (exps.filter (fun e => 0 ≤ e.expDays ∧ e.expDays ≤ 40))).2.1 = 0) :
    get_advanced_pc_ratio exps p =
      (some { ratio := 2, total_call := 0, total_put := 0,
              details := (accumulateL p
                (exps.filter (fun e => 0 ≤ e.expDays ∧ e.expDays ≤ 40))).2.2 },
       none) := by
  simp only [get_advanced_pc_ratio, if_neg hne, if_neg hv, hc, hp]
  norm_num

unseal Rat.add Rat.mul Rat.sub Rat.inv in
theorem both_zero_returns_sentinel_witness :
    expZero ≠ [] ∧
      get_advanced_pc_ratio expZero 100 =
        (some { ratio := 2, total_call := 0, total_put := 0,
                details := [⟨"2026-01-16", 0, 0⟩] }, none) := by
  refine ⟨by decide, ?_⟩
  exact (both_zero_returns_sentinel expZero 100 (by decide) (by decide)
    (by decide) (by decide)).trans (by decide)

/-- C4: the ratio policy of lines 203-204: with positive accumulated
call volume the returned ratio is `total_put / total_call`; with zero
call volume and positive put volume the returned ratio is exactly the
sentinel `2.0`; both outcomes are successes carrying the accumulated
totals and the per-expiration details. -/
theorem pc_ratio_policy (exps : List ExpEntry) (p : Rat)
    (hne : exps ≠ [])
    (hv : exps.filter (fun e => 0 ≤ e.expDays ∧ e.expDays ≤ 40) ≠ []) :
    (0 < (accumulateL p (exps.filter (fun e => 0 ≤ e.expDays ∧ e.expDays ≤ 40))).1 →
      get_advanced_pc_ratio exps p =
        (some { ratio :=
                  (accumulateL p (exps.filter (fun e => 0 ≤ e.expDays ∧ e.expDays ≤ 40))).2.1 /
                    (accumulateL p (exps.filter (fun e => 0 ≤ e.expDays ∧ e.expDays ≤ 40))).1,
                total_call :=
                  (accumulateL p (exps.filter (fun e => 0 ≤ e.expDays ∧ e.expDays ≤ 40))).1,
                total_put :=
                  (accumulateL p (exps.filter (fun e => 0 ≤ e.expDays ∧ e.expDays ≤ 40))).2.1,
                details :=
                  (accumulateL p (exps.filter (fun e => 0 ≤ e.expDays ∧ e.expDays ≤ 40))).2.2 },
         none)) ∧
    ((accumulateL p (exps.filter (fun e => 0 ≤ e.expDays ∧ e.expDays ≤ 40))).1 = 0 →
      0 < (accumulateL p (exps.filter (fun e => 0 ≤ e.expDays ∧ e.expDays ≤ 40))).2.1 →
      get_advanced_pc_ratio exps p =
        (some { ratio := 2,
                total_call := 0,
                total_put :=
                  (accumulateL p (exps.filter (fun e => 0 ≤ e.expDays ∧ e.expDays ≤ 40))).2.1,
                details :=
                  (accumulateL p (exps.filter (fun e => 0 ≤ e.expDays ∧ e.expDays ≤ 40))).2.2 },
         none)) := by
  constructor
  · intro hpos
    simp only [get_advanced_pc_ratio, if_neg hne, if_neg hv, gt_iff_lt, if_pos hpos]
  · intro hc hp
    simp only [get_advanced_pc_ratio, if_neg hne, if_neg hv, hc]
    norm_num

unseal Rat.add Rat.mul Rat.sub Rat.inv in
theorem pc_ratio_policy_witness :
    (expBoth ≠ [] ∧
        get_advanced_pc_ratio expBoth 100 =
          (some { ratio := 3, total_call := 40, total_put := 120,
                  details := [⟨"2026-01-16", 40, 120⟩] }, none)) ∧
      (expPut120 ≠ [] ∧
        get_advanced_pc_ratio expPut120 100 =
          (some { ratio := 2, total_call := 0, total_put := 120,
                  details := [⟨"2026-01-16", 0, 120⟩] }, none)) := by
  refine ⟨⟨by decide, ?_⟩, ⟨by decide, ?_⟩⟩
  · exact ((pc_ratio_policy expBoth 100 (by decide) (by decide)).1
      (by decide)).trans (by decide)
  · exact ((pc_ratio_policy expPut120 100 (by decide) (by decide)).2
      (by decide) (by decide)).trans (by decide)

theorem argminAbsAux_spec (p : Rat) (xs : List Rat) (t : List Rat) :
    ∀ (i bi : Nat) (bv : Rat),
      t = xs.drop i → bi < xs.length → bv = |xs.getD bi 0 - p| →
      argminAbsAux p t bi bv i < xs.length ∧
      |xs.getD (argminAbsAux p t bi bv i) 0 - p| ≤ bv ∧
      ∀ k, i ≤ k → k < xs.length →
        |xs.getD (argminAbsAux p t bi bv i) 0 - p| ≤ |xs.getD k 0 - p| := by
  induction t with
  | nil =>
      intro i bi bv ht hbi hbv
      simp only [argminAbsAux]
      refine ⟨hbi, hbv.ge, ?_⟩
      intro k hik hk
      exfalso
      have hlen := congrArg List.length ht
      simp only [List.length_nil, List.length_drop] at hlen
      omega
  | cons x t' ih =>
      intro i bi bv ht hbi hbv
      have hi : i < xs.length := by
        rcases Nat.lt_or_ge i xs.length with h | h
        · exact h
        · rw [List.drop_eq_nil_of_le h] at ht
          exact absurd ht (List.cons_ne_nil x t')
      have hd : xs.drop i = xs[i] :: xs.drop (i + 1) :=
        List.drop_eq_getElem_cons hi
      rw [hd] at ht
      injection ht with hx ht'
      have hgi : xs.getD i 0 = xs[i] := by
        simp [List.getD_eq_getElem?_getD, List.getElem?_eq_getElem hi]
      simp only [argminAbsAux]
      by_cases hc : |x - p| < bv
      · rw [if_pos hc]
        have hbv' : |x - p| = |xs.getD i 0 - p| := by rw [hgi, hx]
        obtain ⟨h1, h2, h3⟩ := ih (i + 1) i (|x - p|) ht' hi hbv'
        refine ⟨h1, le_trans h2 (le_of_lt hc), ?_⟩
        intro k hik hk
        rcases Nat.eq_or_lt_of_le hik with he | hlt
        · subst he
          exact le_trans h2 (le_of_eq hbv')
        · exact h3 k hlt hk
      · rw [if_neg hc]
        push_neg at hc
        obtain ⟨h1, h2, h3⟩ := ih (i + 1) bi bv ht' hbi hbv
        refine ⟨h1, h2, ?_⟩
        intro k hik hk
        rcases Nat.eq_or_lt_of_le hik with he | hlt
        · subst he
          calc |xs.getD (argminAbsAux p t' bi bv (i + 1)) 0 - p| ≤ bv := h2
            _ ≤ |x - p| := hc
            _ = |xs.getD i 0 - p| := by rw [hgi, hx]
        · exact h3 k hlt hk

theorem argminAbs_spec (xs : List Rat) (p : Rat) (h : xs ≠ []) :
    argminAbs xs p < xs.length ∧
      ∀ k, k < xs.length →
        |xs.getD (argminAbs xs p) 0 - p| ≤ |xs.getD k 0 - p| := by
  match xs, h with
  | x :: t, _ =>
      have h0 : (0 : Nat) < (x :: t).length := by simp
      have hb : |x - p| = |(x :: t).getD 0 0 - p| := rfl
      obtain ⟨h1, h2, h3⟩ :=
        argminAbsAux_spec p (x :: t) t 1 0 (|x - p|) rfl h0 hb
      simp only [argminAbs]
      refine ⟨h1, ?_⟩
      intro k hk
      match k with
      | 0 => exact le_trans h2 (le_of_eq hb)
      | k + 1 => exact h3 (k + 1) (by omega) hk

/-- C7: for every nonempty chain side and spot price, the selected
center index is in range and minimises the absolute strike distance
(numpy `argmin` semantics), and the summed window
`iloc[max(0, c-5) : min(len, c+6)]` is a contiguous in-bounds slice of
the chain of at most 11 strikes — no access is out of range. -/
theorem options_window_in_bounds (rows : List OptionRow) (p : Rat)
    (h : rows ≠ []) :
    argminAbs (rows.map OptionRow.strike) p < rows.length ∧
      (∀ k, k < rows.length →
        |(rows.getD (argminAbs (rows.map OptionRow.strike) p) default).strike - p| ≤
          |(rows.getD k default).strike - p|) ∧
      (windowRows rows p).length ≤ 11 ∧
      List.IsInfix (windowRows rows p) rows := by
  have hne : rows.map OptionRow.strike ≠ [] := by
    simpa using h
  obtain ⟨h1, h2⟩ := argminAbs_spec (rows.map OptionRow.strike) p hne
  rw [List.length_map] at h1
  have hgd : ∀ j, j < rows.length →
      (rows.map OptionRow.strike).getD j 0 = (rows.getD j default).strike := by
    intro j hj
    simp [List.getD_eq_getElem?_getD, List.getElem?_eq_getElem hj,
      List.getElem?_map]
  refine ⟨h1, ?_, ?_, ?_⟩
  · intro k hk
    have := h2 k (by simpa using hk)
    rwa [hgd _ h1, hgd _ hk] at this
  · simp only [windowRows, List.length_take, List.length_drop]
    omega
  · exact ((List.take_prefix _ _).isInfix).trans
      ((List.drop_suffix _ _).isInfix)

unseal Rat.add Rat.mul Rat.sub Rat.inv in
theorem options_window_in_bounds_witness :
    chain115 ≠ [] ∧
      (argminAbs (chain115.map OptionRow.strike) 115 < chain115.length) ∧
      argminAbs strikes115 115 = 5 ∧
      strikes115.getD 5 0 = 115 ∧
      (windowRows chain115 115).length = 11 :=
  ⟨by decide, (options_window_in_bounds chain115 115 (by decide)).1,
   by decide, by decide, by decide⟩

theorem analysis_report_eq (row prev_row : IndRow) (pc : Option PCData) :
    (get_comprehensive_analysis row prev_row pc).2 =
      [(maFactor row).1, (macdFactor row prev_row).1, (rsiFactor row).1] ++
        (volPriceFactor row).1 ++ (optionsFactor pc).1 := rfl

theorem countFactor_nil (nm : String) : countFactor [] nm = 0 := rfl

theorem countFactor_cons (a : Factor) (l : List Factor) (nm : String) :
    countFactor (a :: l) nm =
      (if a.name = nm then 1 else 0) + countFactor l nm := by
  by_cases h : a.name = nm <;>
    simp [countFactor, h, List.filter_cons, Nat.add_comm]

theorem countFactor_append (l1 l2 : List Factor) (nm : String) :
    countFactor (l1 ++ l2) nm = countFactor l1 nm + countFactor l2 nm := by
  simp [countFactor, List.filter_append]

theorem maFactor_name (row : IndRow) : (maFactor row).1.name = "均線系統" := by
  unfold maFactor
  split_ifs <;> rfl

theorem macdFactor_name (row prev_row : IndRow) :
    (macdFactor row prev_row).1.name = "MACD 動能" := by
  unfold macdFactor
  split_ifs <;> rfl

theorem rsiFactor_name (row : IndRow) : (rsiFactor row).1.name = "RSI 指標" := by
  unfold rsiFactor
  split_ifs <;> rfl

theorem volPriceFactor_count_self (row : IndRow) :
    countFactor (volPriceFactor row).1 "量價關係" =
      if row.bar.close > row.bar.op then
        (if oGt (volRatio row) (some (6/5)) then 1
         else if oLt (volRatio row) (some (4/5)) then 1 else 0)
      else (if oGt (volRatio row) (some (6/5)) then 1 else 0) := by
  unfold volPriceFactor
  split_ifs <;> rfl

theorem volPriceFactor_count_other (row : IndRow) (nm : String)
    (h : nm ≠ "量價關係") : countFactor (volPriceFactor row).1 nm = 0 := by
  have h' : ("量價關係" : String) ≠ nm := fun e => h e.symm
  unfold volPriceFactor
  split_ifs <;> simp [countFactor, h']

theorem optionsFactor_count_self (pc : Option PCData) :
    countFactor (optionsFactor pc).1 "期權籌碼" =
      if pc.isSome then 1 else 0 := by
  cases pc with
  | none => rfl
  | some d =>
      simp only [optionsFactor, Option.isSome_some, if_true]
      split_ifs <;> rfl

theorem optionsFactor_count_other (pc : Option PCData) (nm : String)
    (h : nm ≠ "期權籌碼") : countFactor (optionsFactor pc).1 nm = 0 := by
  have h' : ("期權籌碼" : String) ≠ nm := fun e => h e.symm
  cases pc with
  | none => rfl
  | some d =>
      simp only [optionsFactor]
      split_ifs <;> simp [countFactor, h']

unseal Rat.add Rat.mul Rat.sub Rat.inv in
/-- C5 counterexample: for a row whose close is up on the day with the
volume ratio exactly 1 (inside `[0.8, 1.2]`), the factor breakdown has
no volume/price entry at all — only the first three factors appear
(and no options entry, `pc_data` being absent) — refuting the claim
that each of the first four factors always contributes one entry. -/
theorem volume_factor_missing_counterexample :
    countFactor (get_comprehensive_analysis rowNoVol rowNoVol none).2
        "量價關係" = 0 ∧
      (get_comprehensive_analysis rowNoVol rowNoVol none).2.map Factor.name =
        ["均線系統", "MACD 動能", "RSI 指標"] := by
  constructor <;> decide

/-- C5 (amended): the factor breakdown always contains exactly one
entry for each of the first three factors (moving averages, MACD, RSI);
a volume/price entry appears exactly when (close > open and the volume
ratio is above 1.2 or below 0.8) or (close ≤ open and the ratio is
above 1.2) — it is omitted in the remaining cases; and an options entry
appears if and only if put/call data is provided.  (The hypothesis
excludes a zero volume SMA, where Python's float division yields `inf`
while `Rat` division yields `0`.) -/
theorem factor_breakdown_amended (row prev_row : IndRow) (pc : Option PCData)
    (hv : row.volSMA10 ≠ some 0) :
    countFactor (get_comprehensive_analysis row prev_row pc).2 "均線系統" = 1 ∧
    countFactor (get_comprehensive_analysis row prev_row pc).2 "MACD 動能" = 1 ∧
    countFactor (get_comprehensive_analysis row prev_row pc).2 "RSI 指標" = 1 ∧
    countFactor (get_comprehensive_analysis row prev_row pc).2 "量價關係" =
      (if row.bar.close > row.bar.op then
        (if oGt (volRatio row) (some (6/5)) then 1
         else if oLt (volRatio row) (some (4/5)) then 1 else 0)
       else (if oGt (volRatio row) (some (6/5)) then 1 else 0)) ∧
    countFactor (get_comprehensive_analysis row prev_row pc).2 "期權籌碼" =
      (if pc.isSome then 1 else 0) := by
  refine ⟨?_, ?_, ?_, ?_, ?_⟩
  · rw [analysis_report_eq, countFactor_append, countFactor_append,
      countFactor_cons, countFactor_cons, countFactor_cons, countFactor_nil,
      maFactor_name, macdFactor_name, rsiFactor_name,
      volPriceFactor_count_other row _ (by decide),
      optionsFactor_count_other pc _ (by decide)]
    decide
  · rw [analysis_report_eq, countFactor_append, countFactor_append,
      countFactor_cons, countFactor_cons, countFactor_cons, countFactor_nil,
      maFactor_name, macdFactor_name, rsiFactor_name,
      volPriceFactor_count_other row _ (by decide),
      optionsFactor_count_other pc _ (by decide)]
    decide
  · rw [analysis_report_eq, countFactor_append, countFactor_append,
      countFactor_cons, countFactor_cons, countFactor_cons, countFactor_nil,
      maFactor_name, macdFactor_name, rsiFactor_name,
      volPriceFactor_count_other row _ (by decide),
      optionsFactor_count_other pc _ (by decide)]
    decide
  · rw [analysis_report_eq, countFactor_append, countFactor_append,
      countFactor_cons, countFactor_cons, countFactor_cons, countFactor_nil,
      maFactor_name, macdFactor_name, rsiFactor_name,
      volPriceFactor_count_self,
      optionsFactor_count_other pc _ (by decide)]
    simp
  · rw [analysis_report_eq, countFactor_append, countFactor_append,
      countFactor_cons, countFactor_cons, countFactor_cons, countFactor_nil,
      maFactor_name, macdFactor_name, rsiFactor_name,
      volPriceFactor_count_other row _ (by decide),
      optionsFactor_count_self]
    simp

unseal Rat.add Rat.mul Rat.sub Rat.inv in
theorem factor_breakdown_amended_witness :
    rowNoVol.volSMA10 ≠ some 0 ∧
      countFactor (get_comprehensive_analysis rowNoVol rowNoVol
          (some samplePC)).2 "期權籌碼" = 1 :=
  ⟨by decide,
   ((factor_breakdown_amended rowNoVol rowNoVol (some samplePC)
       (by decide)).2.2.2.2).trans (by decide)⟩

theorem augment_length (df : List Bar) (m : Rat) :
    (augment df m).length = df.length := by
  simp [augment]

theorem getD_range_map {α : Type} (F : Nat → α) (n j : Nat) (d : α)
    (h : j < n) : ((List.range n).map F).getD j d = F j := by
  rw [List.getD_eq_getElem?_getD, List.getElem?_map, List.getElem?_range h]
  rfl

/-- C3: on every series the engine accepts (at least 50 rows) and for
every ATR multiplier in `[1.5, 4.0]`, every row of the augmented series
satisfies `Stop_Loss = Close - ATR * atr_mult` exactly (app.py line 98;
the stop-loss cell is `NaN` exactly where the ATR cell is, which the
`Option.map` expresses). -/
theorem stop_loss_eq (df : List Bar) (m : Rat) (j : Nat)
    (h50 : 50 ≤ df.length) (hm1 : 3/2 ≤ m) (hm2 : m ≤ 4)
    (hj : j < (augment df m).length) :
    ((augment df m).getD j default).stopLoss =
      (((augment df m).getD j default).atr).map
        (fun a => (((augment df m).getD j default).bar).close - a * m) := by
  have hj' : j < df.length := by rwa [augment_length] at hj
  simp only [augment]
  rw [getD_range_map _ _ _ _ hj']
  simp [mkRow]

set_option maxRecDepth 100000 in
unseal Rat.add Rat.mul Rat.sub Rat.inv in
theorem stop_loss_eq_witness :
    50 ≤ testBars50.length ∧ ((3 : Rat)/2 ≤ 2 ∧ (2 : Rat) ≤ 4) ∧
      49 < (augment testBars50 2).length ∧
      ((augment testBars50 2).getD 49 default).stopLoss =
        (((augment testBars50 2).getD 49 default).atr).map
          (fun a => (((augment testBars50 2).getD 49 default).bar).close - a * 2) ∧
      ((augment testBars50 2).getD 49 default).stopLoss = some 4 := by
  have hj : 49 < (augment testBars50 2).length := by
    rw [augment_length]; decide
  exact ⟨by decide, ⟨by decide, by decide⟩, hj,
    stop_loss_eq testBars50 2 49 (by decide) (by decide) (by decide) hj,
    by decide⟩

theorem emaTail_length (a s : Rat) (xs : List Rat) :
    (emaTail a s xs).length = xs.length := by
  induction xs generalizing s with
  | nil => rfl
  | cons x t ih => simp [emaTail, ih]

theorem emaTail_take (a s : Rat) (xs : List Rat) (k : Nat) :
    emaTail a s (xs.take k) = (emaTail a s xs).take k := by
  induction xs generalizing s k with
  | nil => simp [emaTail]
  | cons x t ih =>
      cases k with
      | zero => simp [emaTail]
      | succ n => simp [emaTail, List.take_succ_cons, ih]

theorem ewmCol_length (a : Rat) (n : Nat) (xs : List Rat) :
    (ewmCol a n xs).length = xs.length := by
  unfold ewmCol
  split_ifs with h
  · simp
  · push_neg at h
    simp [emaTail_length]
    omega

theorem ewmCol_take (a : Rat) (n : Nat) (xs : List Rat) (k : Nat)
    (hk : k ≤ xs.length) :
    ewmCol a n (xs.take k) = (ewmCol a n xs).take k := by
  have hlt : (xs.take k).length = k := by
    simp [List.length_take, Nat.min_eq_left hk]
  by_cases hn : n = 0
  · subst hn
    unfold ewmCol
    simp [hlt, List.take_replicate, Nat.min_eq_left hk]
  by_cases hkn : k < n
  · have hLHS : ewmCol a n (xs.take k) = List.replicate k none := by
      unfold ewmCol
      rw [if_pos (Or.inl (by omega)), hlt]
    rw [hLHS]
    by_cases hxn : xs.length < n
    · unfold ewmCol
      rw [if_pos (Or.inl hxn)]
      simp [List.take_replicate, Nat.min_eq_left hk]
    · unfold ewmCol
      rw [if_neg (by push_neg; exact ⟨by omega, hn⟩)]
      rw [List.take_append_of_le_length (by simp; omega)]
      simp [List.take_replicate]
      omega
  · push_neg at hkn
    have hxn : ¬ xs.length < n := by omega
    have hc1 : ¬ ((xs.take k).length < n ∨ n = 0) := by
      rw [hlt]
      push_neg
      exact ⟨by omega, hn⟩
    have hc2 : ¬ (xs.length < n ∨ n = 0) := by
      push_neg
      exact ⟨by omega, hn⟩
    have hseed : (xs.take k).take n = xs.take n := by
      rw [List.take_take, Nat.min_eq_left hkn]
    have hdrop : (xs.take k).drop n = (xs.drop n).take (k - n) :=
      List.drop_take k n xs
    have hrepl : List.take k (List.replicate (n - 1) (none : Option Rat)) =
        List.replicate (n - 1) none :=
      List.take_of_length_le (by simp; omega)
    unfold ewmCol
    rw [if_neg hc1, if_neg hc2, hseed, hdrop]
    rw [List.take_append_eq_append_take, hrepl]
    simp only [List.length_replicate]
    rw [List.take_cons (by omega : 0 < k - (n - 1))]
    have hkn1 : k - (n - 1) - 1 = k - n := by omega
    rw [hkn1, emaTail_take, List.map_take]

theorem ema_take (n : Nat) (xs : List Rat) (k : Nat) (hk : k ≤ xs.length) :
    ema n (xs.take k) = (ema n xs).take k :=
  ewmCol_take _ n xs k hk

theorem rma_take (n : Nat) (xs : List Rat) (k : Nat) (hk : k ≤ xs.length) :
    rma n (xs.take k) = (rma n xs).take k :=
  ewmCol_take _ n xs k hk

theorem getD_take {α : Type} (l : List α) (k j : Nat) (d : α) (hj : j < k) :
    (l.take k).getD j d = l.getD j d := by
  simp [List.getD_eq_getElem?_getD, List.getElem?_take_of_lt hj]

theorem sma_take (n : Nat) (xs : List Rat) (k : Nat) (hk : k ≤ xs.length) :
    sma n (xs.take k) = (sma n xs).take k := by
  unfold sma
  rw [List.length_take, Nat.min_eq_left hk, ← List.map_take, List.take_range,
    Nat.min_eq_left hk]
  apply List.map_congr_left
  intro i hi
  have hik : i < k := List.mem_range.mp hi
  by_cases hin : i + 1 < n
  · simp [hin]
  · simp only [if_neg hin]
    have he : List.take n (List.drop (i + 1 - n) (List.take k xs)) =
        List.take n (List.drop (i + 1 - n) xs) := by
      rw [List.drop_take, List.take_take]
      congr 1
      omega
    rw [he]

theorem osub_take (xs ys : List (Option Rat)) (k : Nat) :
    osub (xs.take k) (ys.take k) = (osub xs ys).take k := by
  simp [osub, List.take_zipWith]

theorem osub_length (xs ys : List (Option Rat)) :
    (osub xs ys).length = min xs.length ys.length := by
  simp [osub]

theorem leadNones_le_length (xs : List (Option Rat)) :
    leadNones xs ≤ xs.length := by
  induction xs with
  | nil => simp [leadNones]
  | cons x t ih =>
      cases x with
      | none =>
          simp only [leadNones, List.length_cons]
          omega
      | some v => simp [leadNones]

theorem leadNones_take (xs : List (Option Rat)) (k : Nat) :
    leadNones (xs.take k) = min k (leadNones xs) := by
  induction xs generalizing k with
  | nil => simp [leadNones]
  | cons x t ih =>
      cases k with
      | zero => simp [leadNones]
      | succ j =>
          cases x with
          | none =>
              simp only [List.take_succ_cons, leadNones, ih]
              omega
          | some v => simp [List.take_succ_cons, leadNones]

theorem ema_nil (n : Nat) : ema n ([] : List Rat) = [] := by
  unfold ema ewmCol
  split_ifs with h
  · rfl
  · exfalso
    push_neg at h
    simp only [List.length_nil] at h
    omega

theorem emaOptCol_length (n : Nat) (xs : List (Option Rat)) :
    (emaOptCol n xs).length = xs.length := by
  have h := leadNones_le_length xs
  simp [emaOptCol, ema, ewmCol_length]
  omega

theorem emaOptCol_take (n : Nat) (xs : List (Option Rat)) (k : Nat)
    (hk : k ≤ xs.length) :
    emaOptCol n (xs.take k) = (emaOptCol n xs).take k := by
  unfold emaOptCol
  rw [leadNones_take]
  by_cases hkl : k ≤ leadNones xs
  · rw [Nat.min_eq_left hkl]
    have hdk : (xs.take k).drop k = [] := by
      apply List.drop_eq_nil_of_le
      simp
    rw [hdk]
    have hrepl : List.take k (List.replicate (leadNones xs) (none : Option Rat)) =
        List.replicate k none := by
      rw [List.take_replicate, Nat.min_eq_left hkl]
    rw [List.take_append_of_le_length (by simp; omega), hrepl]
    simp [ema_nil]
  · push_neg at hkl
    rw [Nat.min_eq_right (le_of_lt hkl)]
    have hdrop : (xs.take k).drop (leadNones xs) =
        (xs.drop (leadNones xs)).take (k - leadNones xs) :=
      List.drop_take k _ xs
    rw [hdrop, List.map_take]
    rw [ema_take _ _ _ (by simp [List.length_drop]; omega)]
    have hrepl : List.take k (List.replicate (leadNones xs) (none : Option Rat)) =
        List.replicate (leadNones xs) none :=
      List.take_of_length_le (by simp; omega)
    rw [List.take_append_eq_append_take, hrepl]
    simp only [List.length_replicate]

theorem trueRange_length (df : List Bar) : (trueRange df).length = df.length := by
  simp [trueRange]

theorem trueRange_take (df : List Bar) (k : Nat) (hk : k ≤ df.length) :
    trueRange (df.take k) = (trueRange df).take k := by
  unfold trueRange
  rw [List.length_take, Nat.min_eq_left hk, ← List.map_take, List.take_range,
    Nat.min_eq_left hk]
  apply List.map_congr_left
  intro i hi
  have hik : i < k := List.mem_range.mp hi
  have h1 : (df.take k).getD i default = df.getD i default :=
    getD_take df k i default hik
  have h2 : (df.take k).getD (i - 1) default = df.getD (i - 1) default :=
    getD_take df k (i - 1) default (by omega)
  rw [h1, h2]

theorem zipWith_take_left {α β γ : Type} (f : α → β → γ) (a : List α)
    (b : List β) (n : Nat) :
    List.zipWith f (a.take n) b = (List.zipWith f a b).take n := by
  induction a generalizing b n with
  | nil => simp
  | cons x t ih =>
      cases b with
      | nil => simp
      | cons y s =>
          cases n with
          | zero => simp
          | succ m => simp [List.take_succ_cons, ih]

theorem zipWith_eq_of_le {α β γ : Type} (f : α → β → γ) (a : List α)
    (b : List β) (n : Nat) (h : a.length ≤ n) :
    List.zipWith f a (b.take n) = List.zipWith f a b := by
  induction a generalizing b n with
  | nil => simp
  | cons x t ih =>
      cases b with
      | nil => simp
      | cons y s =>
          cases n with
          | zero => simp at h
          | succ m =>
              simp only [List.take_succ_cons, List.zipWith_cons_cons]
              rw [ih s m (by simpa using h)]

theorem rsiCol_length (xs : List Rat) : (rsiCol xs).length = xs.length := by
  unfold rsiCol
  cases xs with
  | nil => rfl
  | cons x t =>
      simp [rma, ewmCol_length, List.length_zipWith]

theorem rsiCol_take (xs : List Rat) (k : Nat) (hk : k ≤ xs.length) :
    rsiCol (xs.take k) = (rsiCol xs).take k := by
  cases k with
  | zero => rfl
  | succ j =>
      cases xs with
      | nil => simp at hk
      | cons x t =>
          have hj : j ≤ t.length := by simpa using hk
          have hdifs : List.zipWith (fun a b => a - b) (x :: t.take j).tail
              (x :: t.take j) =
              (List.zipWith (fun a b => a - b) (x :: t).tail (x :: t)).take j := by
            simp only [List.tail_cons]
            rw [show (x :: t.take j) = (x :: t).take (j + 1) from
              (List.take_succ_cons).symm]
            rw [zipWith_eq_of_le _ _ _ _ (by simp only [List.length_take]; omega)]
            exact zipWith_take_left _ _ _ _
          rw [List.take_succ_cons]
          simp only [rsiCol, List.tail_cons]
          simp only [List.tail_cons] at hdifs
          rw [hdifs, List.take_succ_cons]
          rw [List.map_take, List.map_take]
          rw [rma_take _ _ _ (by simp only [List.length_map,
              List.length_zipWith, List.length_cons]; omega),
            rma_take _ _ _ (by simp only [List.length_map,
              List.length_zipWith, List.length_cons]; omega)]
          rw [← List.take_zipWith]

theorem ema8Col_take (df : List Bar) (k : Nat) (hk : k ≤ df.length) :
    ema8Col (df.take k) = (ema8Col df).take k := by
  have h : k ≤ (df.map Bar.close).length := by simpa using hk
  unfold ema8Col
  rw [List.map_take, ema_take 8 (df.map Bar.close) k h]

theorem ema21Col_take (df : List Bar) (k : Nat) (hk : k ≤ df.length) :
    ema21Col (df.take k) = (ema21Col df).take k := by
  have h : k ≤ (df.map Bar.close).length := by simpa using hk
  unfold ema21Col
  rw [List.map_take, ema_take 21 (df.map Bar.close) k h]

theorem macdLineCol_take (df : List Bar) (k : Nat) (hk : k ≤ df.length) :
    macdLineCol (df.take k) = (macdLineCol df).take k := by
  have h : k ≤ (df.map Bar.close).length := by simpa using hk
  unfold macdLineCol
  rw [List.map_take, ema_take 12 (df.map Bar.close) k h,
    ema_take 26 (df.map Bar.close) k h, osub_take]

theorem macdLineCol_length (df : List Bar) :
    (macdLineCol df).length = df.length := by
  simp [macdLineCol, osub_length, ema, ewmCol_length]

theorem macdSignalCol_take (df : List Bar) (k : Nat) (hk : k ≤ df.length) :
    macdSignalCol (df.take k) = (macdSignalCol df).take k := by
  have h : k ≤ (macdLineCol df).length := by
    rw [macdLineCol_length]
    exact hk
  unfold macdSignalCol
  rw [macdLineCol_take df k hk, emaOptCol_take 9 (macdLineCol df) k h]

theorem macdHistCol_take (df : List Bar) (k : Nat) (hk : k ≤ df.length) :
    macdHistCol (df.take k) = (macdHistCol df).take k := by
  unfold macdHistCol
  rw [macdLineCol_take df k hk, macdSignalCol_take df k hk, osub_take]

theorem volSMACol_take (df : List Bar) (k : Nat) (hk : k ≤ df.length) :
    volSMACol (df.take k) = (volSMACol df).take k := by
  have h : k ≤ (df.map Bar.volume).length := by simpa using hk
  unfold volSMACol
  rw [List.map_take, sma_take 10 (df.map Bar.volume) k h]

theorem atrCol_take (df : List Bar) (k : Nat) (hk : k ≤ df.length) :
    atrCol (df.take k) = (atrCol df).take k := by
  have h : k ≤ (trueRange df).length := by
    rw [trueRange_length]
    exact hk
  unfold atrCol
  rw [trueRange_take df k hk, rma_take 14 (trueRange df) k h]

theorem rsiColOf_take (df : List Bar) (k : Nat) (hk : k ≤ df.length) :
    rsiColOf (df.take k) = (rsiColOf df).take k := by
  have h : k ≤ (df.map Bar.close).length := by simpa using hk
  unfold rsiColOf
  rw [List.map_take, rsiCol_take (df.map Bar.close) k h]

theorem augment_take (df : List Bar) (m : Rat) (k : Nat) (hk : k ≤ df.length) :
    augment (df.take k) m = (augment df m).take k := by
  unfold augment
  rw [List.length_take, Nat.min_eq_left hk, ← List.map_take, List.take_range,
    Nat.min_eq_left hk]
  apply List.map_congr_left
  intro j hj
  have hjk : j < k := List.mem_range.mp hj
  rw [getD_take df k j default hjk]
  rw [ema8Col_take df k hk, ema21Col_take df k hk, macdLineCol_take df k hk,
    macdSignalCol_take df k hk, macdHistCol_take df k hk,
    volSMACol_take df k hk, atrCol_take df k hk, rsiColOf_take df k hk]
  rw [getD_take (ema8Col df) k j none hjk,
    getD_take (ema21Col df) k j none hjk,
    getD_take (macdLineCol df) k j none hjk,
    getD_take (macdSignalCol df) k j none hjk,
    getD_take (macdHistCol df) k j none hjk,
    getD_take (volSMACol df) k j none hjk,
    getD_take (atrCol df) k j none hjk,
    getD_take (rsiColOf df) k j none hjk,
    getD_take (macdHistCol df) k (j - 1) none (by omega)]

/-- C8: no look-ahead: the indicator columns and the signal computed at
any row depend only on the bars up to that row — two series of accepted
length that agree on rows `0..i` produce augmented rows that agree at
every index up to `i`.  (Each column commutes with `List.take`, which is
exactly causality for the vectorised pandas pipeline.) -/
theorem no_lookahead (df1 df2 : List Bar) (m : Rat) (i : Nat)
    (hp : df1.take (i + 1) = df2.take (i + 1))
    (h1 : 50 ≤ df1.length) (h2 : 50 ≤ df2.length) (hi : i < df1.length) :
    (augment df1 m).take (i + 1) = (augment df2 m).take (i + 1) := by
  have hk1 : i + 1 ≤ df1.length := by omega
  have hk2 : i + 1 ≤ df2.length := by
    have hlen := congrArg List.length hp
    simp only [List.length_take] at hlen
    omega
  rw [← augment_take df1 m (i + 1) hk1, ← augment_take df2 m (i + 1) hk2, hp]

set_option maxRecDepth 100000 in
unseal Rat.add Rat.mul Rat.sub Rat.inv in
theorem no_lookahead_witness :
    testBarsA.take 50 = testBarsB.take 50 ∧
      50 ≤ testBarsA.length ∧ 50 ≤ testBarsB.length ∧
      49 < testBarsA.length ∧
      (augment testBarsA 2).take 50 = (augment testBarsB 2).take 50 :=
  ⟨by decide, by decide, by decide, by decide,
   no_lookahead testBarsA testBarsB 2 49 (by decide) (by decide) (by decide)
     (by decide)⟩

end AlphaTrader
